import Mathlib

set_option autoImplicit false

/-!
Verification development for the docbuild repository.

The definitions below are a shallow embedding of the Python sources:

* `src/docbuild/cli/cmd_metadata/metaprocess.py` (deliverable processing,
  repository updating, the concurrency coordinator `process_doctype`, the
  orchestrating `process`, and the manifest aggregation
  `store_productdocset_json`),
* `src/docbuild/utils/git.py` (`ManagedGitRepo.clone_bare`),
* `src/docbuild/utils/contextmgr.py` (`PersistentOnErrorTemporaryDirectory`),
* `src/docbuild/cli/cmd_check/process.py` (`_group_by_repo`,
  `process_check_files`).

Effectful Python operations (subprocess invocations, filesystem calls) are
modelled by explicit oracle records describing their outcomes, and Python
exceptions are modelled by the `PyResult` type.  Python strings are modelled
at the level of `List Char` where the character-by-character behaviour of
`str.replace` and the substring operator `in` matters.
-/

namespace Docbuild

/-- Python exceptions, as far as the embedded code distinguishes them. -/
inductive PyExc where
  | typeError
  | osError
  | runtimeError
  | fileNotFound
  deriving Repr, DecidableEq

/-- Outcome of calling a Python function: either a raised exception or a
returned value. -/
inductive PyResult (α : Type) where
  | raised (e : PyExc)
  | returned (v : α)
  deriving Repr, DecidableEq

/-- Python truthiness of a `gather(..., return_exceptions=True)` slot,
negated, as in the source line `if not success`: a returned `False` is
falsy; a returned `True` and any exception instance are truthy. -/
def resultFalsy : PyResult Bool → Bool
  | .returned b => !b
  | .raised _ => false

/-- Whether the character list `pat` is an initial segment of `l`
(the matching step of Python `str.replace` and of the `in` operator). -/
def listStartsWith : List Char → List Char → Bool
  | [], _ => true
  | _ :: _, [] => false
  | p :: ps, c :: cs => if p = c then listStartsWith ps cs else false

/-- Python substring test `pat in s` on character lists. -/
def listContains (pat : List Char) : List Char → Bool
  | [] => pat.isEmpty
  | c :: rest => listStartsWith pat (c :: rest) || listContains pat rest

/-- Python `s.replace(pat, rep)`: scan left to right, replace each
non-overlapping leftmost occurrence of `pat` by `rep`, and continue after
the replacement.  (All uses in the source have a non-empty `pat`.) -/
def pyReplace (pat rep : List Char) : List Char → List Char
  | [] => []
  | c :: rest =>
    if h : pat ≠ [] ∧ listStartsWith pat (c :: rest) = true then
      rep ++ pyReplace pat rep ((c :: rest).drop pat.length)
    else
      c :: pyReplace pat rep rest
termination_by l => l.length
decreasing_by
  · have hp : 0 < pat.length := List.length_pos.mpr h.1
    simp only [List.length_drop, List.length_cons]
    omega
  · simp only [List.length_cons]
    omega

/-- Modelled from the spec: the local mirror path is a deterministic
function (a slug) of the remote URL; the `Repo` model that computes it is
not part of the sources under verification.  Any deterministic function is
a faithful model; we use the URL itself. -/
def slugOf (url : String) : String := url

/-- State visible to one `process_doctype` batch: whether
`context.envconfig` is set, and which mirror directories currently exist
under `paths.repo_dir` (identified by their slug). -/
structure Env where
  envconfigPresent : Bool
  mirrorDirs : List String
  deriving Repr, DecidableEq

/-- Embedding of `ManagedGitRepo.clone_bare` (src/docbuild/utils/git.py,
lines 51-76).  If the bare repository path already exists the call returns
`True` without invoking git.  Otherwise one `git clone --bare` subprocess
is attempted (recorded in the third component); on success the mirror
directory comes into existence, on failure (`RuntimeError` from the git
helper, caught inside `clone_bare`) the call returns `False`.  Returns
(result, mirror directories afterwards, git clone attempts made). -/
def cloneBare (mirrors : List String) (url : String) (cloneOk : Bool) :
    Bool × List String × List String :=
  if slugOf url ∈ mirrors then (true, mirrors, [])
  else if cloneOk then (true, slugOf url :: mirrors, [url])
  else (false, mirrors, [url])

/-- One per-deliverable record of the stitched configuration, as consumed
by `process_deliverable`.  The `Deliverable` model class itself is not part
of the sources under verification; its attributes are modelled as opaque
string/boolean fields. -/
structure Deliverable where
  productid : String
  docsetid : String
  lang : String
  gitUrl : String
  branch : String
  subdir : String
  dcfile : String
  fmtPdf : Bool
  fmtSinglehtml : Bool
  relpath : String
  htmlPath : String
  pdfPath : String
  singlehtmlPath : String
  language : String
  fullId : String
  deriving Repr, DecidableEq

/-- Embedding of `update_repositories` (metaprocess.py lines 213-234),
recursing over the deduplicated URL list: `unique_urls = {d.git.url for d
in deliverables}`.  Returns (all updates succeeded, mirror directories
afterwards, git clone attempts made). -/
def updateReposGo (mirrors : List String) (cloneOk : String → Bool) :
    List String → Bool × List String × List String
  | [] => (true, mirrors, [])
  | url :: rest =>
    let c := cloneBare mirrors url (cloneOk url)
    let r := updateReposGo c.2.1 cloneOk rest
    (c.1 && r.1, r.2.1, c.2.2 ++ r.2.2)

/-- `update_repositories` on a batch: deduplicate the remote URLs of the
deliverables into a set, then ensure a bare clone for each unique URL. -/
def updateRepositories (mirrors : List String) (ds : List Deliverable)
    (cloneOk : String → Bool) : Bool × List String × List String :=
  updateReposGo mirrors cloneOk (ds.map (·.gitUrl)).dedup

/-- The per-deliverable JSON artifact produced by the DAPS metadata build,
as far as `process_deliverable` touches it: `docs[0].dcfile`,
`docs[0].format.{html,pdf,single-html}` and `docs[0].lang`.  `none` models
a JSON `null` (or empty-string) value. -/
structure JsonDoc where
  dcfile : Option String
  formatHtml : Option String
  formatPdf : Option String
  formatSinglehtml : Option String
  lang : Option String
  deriving Repr, DecidableEq

/-- Python truthiness of the `lang` field read by
`if not jsonconfig["docs"][0]["lang"]`: `null` and the empty string are
falsy. -/
def strTruthy : Option String → Bool
  | none => false
  | some s => !s.isEmpty

/-- Embedding of the artifact patch of `process_deliverable`
(metaprocess.py lines 194-203): `dcfile` and the HTML path are always
assigned; the PDF and single-HTML paths only when the corresponding format
flag of the deliverable is set; `lang` only when the present value is
falsy. -/
def patchArtifact (d : Deliverable) (j : JsonDoc) : JsonDoc :=
  let j1 := { j with dcfile := some d.dcfile, formatHtml := some d.htmlPath }
  let j2 := if d.fmtPdf then { j1 with formatPdf := some d.pdfPath } else j1
  let j3 := if d.fmtSinglehtml then
      { j2 with formatSinglehtml := some d.singlehtmlPath } else j2
  if strTruthy j3.lang then j3 else { j3 with lang := some d.language }

/-- Oracle for the effectful steps of one `process_deliverable` call:
whether `outputdir.mkdir(parents=True, exist_ok=True)` raises, whether
`create_worktree` raises, whether launching the DAPS subprocess raises,
the DAPS exit code, the artifact JSON produced by a successful DAPS run,
and whether re-reading that artifact in `edit_json` raises. -/
structure DelivOracle where
  mkdirExc : Option PyExc
  worktreeExc : Option PyExc
  dapsLaunchExc : Option PyExc
  dapsReturncode : Nat
  dapsArtifact : JsonDoc
  editJsonExc : Option PyExc
  deriving Repr, DecidableEq

/-- The step of `process_deliverable` at which a failure was produced. -/
inductive FailSite where
  | noEnvconfig
  | bareRepoMissing
  | worktreeFailed
  | dapsLaunch
  | dapsNonzero
  | patchFailed
  deriving Repr, DecidableEq

/-- Observable outcome of one `process_deliverable` call: the Python
result (a returned boolean or a propagated exception), the failure site if
any, the git clone subprocesses invoked, the artifact content written, and
the deliverable identifier carried by the `log.error` message of the
`except` handler when it ran. -/
structure DelivResult where
  result : PyResult Bool
  failSite : Option FailSite
  gitCloneCalls : List String
  artifactWritten : Option JsonDoc
  loggedId : Option String
  deriving Repr, DecidableEq

/-- Embedding of `process_deliverable` (metaprocess.py lines 77-210).

Control flow of the source: the checks on `context.envconfig` (line 111)
and on the bare repository directory (line 117) return `False` directly;
`outputdir.mkdir` (line 122) runs BEFORE the `try` block, so an exception
raised there propagates to the caller; everything from entering the
temporary-directory context (line 128) to the artifact patch (line 203)
is inside the `try`, whose `except Exception` handler (lines 208-210)
converts any exception into `False` and logs the deliverable's `full_id`.
Inside the `try`, `clone_bare` finds the mirror directory already present
(its existence was just checked) and returns without invoking git. -/
def processDeliverable (env : Env) (d : Deliverable) (o : DelivOracle) :
    DelivResult :=
  if !env.envconfigPresent then
    { result := .returned false, failSite := some .noEnvconfig,
      gitCloneCalls := [], artifactWritten := none, loggedId := none }
  else if slugOf d.gitUrl ∉ env.mirrorDirs then
    { result := .returned false, failSite := some .bareRepoMissing,
      gitCloneCalls := [], artifactWritten := none, loggedId := none }
  else
    match o.mkdirExc with
    | some e =>
      { result := .raised e, failSite := none,
        gitCloneCalls := [], artifactWritten := none, loggedId := none }
    | none =>
      match o.worktreeExc with
      | some _ =>
        { result := .returned false, failSite := some .worktreeFailed,
          gitCloneCalls := [], artifactWritten := none,
          loggedId := some d.fullId }
      | none =>
        match o.dapsLaunchExc with
        | some _ =>
          { result := .returned false, failSite := some .dapsLaunch,
            gitCloneCalls := [], artifactWritten := none,
            loggedId := some d.fullId }
        | none =>
          if o.dapsReturncode ≠ 0 then
            { result := .returned false, failSite := some .dapsNonzero,
              gitCloneCalls := [], artifactWritten := none,
              loggedId := some d.fullId }
          else
            match o.editJsonExc with
            | some _ =>
              { result := .returned false, failSite := some .patchFailed,
                gitCloneCalls := [], artifactWritten := none,
                loggedId := some d.fullId }
            | none =>
              { result := .returned true, failSite := none,
                gitCloneCalls := [],
                artifactWritten := some (patchArtifact d o.dapsArtifact),
                loggedId := none }

/-- Observable outcome of one `process_doctype` call. -/
structure DoctypeResult where
  result : PyResult (List Deliverable)
  gitCalls : List String
  updateResult : Option Bool
  deriving Repr, DecidableEq

/-- The repository update step of `process_doctype` (metaprocess.py lines
277-280): skipped entirely when requested, else `update_repositories`. -/
def doctypeUpdate (env : Env) (ds : List Deliverable)
    (cloneOk : String → Bool) (skipRepoUpdate : Bool) :
    Bool × List String × List String :=
  if skipRepoUpdate then (true, env.mirrorDirs, [])
  else updateRepositories env.mirrorDirs ds cloneOk

/-- The environment the per-deliverable tasks of one batch run in: the
mirror directories after the (possibly skipped) repository update. -/
def doctypeEnv (env : Env) (ds : List Deliverable)
    (cloneOk : String → Bool) (skipRepoUpdate : Bool) : Env :=
  { env with mirrorDirs := (doctypeUpdate env ds cloneOk skipRepoUpdate).2.1 }

/-- Embedding of `process_doctype` (metaprocess.py lines 237-324) on an
already-resolved deliverable list.

The repository update (line 280) is awaited but its boolean result is
discarded (recorded here in `updateResult` for inspection).  One task per
deliverable is created (line 298).  In fail-fast mode the source iterates
`asyncio.as_completed(tasks)` and executes
`success, deliverable = await task` (line 304); `process_deliverable`
returns a plain `bool`, so if the first-completed task returned, unpacking
the non-iterable `bool` raises `TypeError`, and if it raised, `await task`
re-raises its exception; either way the exception propagates out of
`process_doctype`.  `firstIdx` names the index (in task-creation order) of
the task that completes first; scheduling decides its value, so theorems
quantify over it.  In collect-all mode `asyncio.gather(...,
return_exceptions=True)` awaits every task and the failure list keeps the
deliverables whose slot is falsy (`if not success`), in batch order. -/
def processDoctype (env : Env) (ds : List Deliverable)
    (oracles : Deliverable → DelivOracle) (cloneOk : String → Bool)
    (exitfirst : Bool) (skipRepoUpdate : Bool) (firstIdx : Nat) :
    DoctypeResult :=
  let upd := doctypeUpdate env ds cloneOk skipRepoUpdate
  let env2 : Env := doctypeEnv env ds cloneOk skipRepoUpdate
  let rs := ds.map (fun d => processDeliverable env2 d (oracles d))
  let taskCalls := (rs.map (·.gitCloneCalls)).flatten
  let res : PyResult (List Deliverable) :=
    if exitfirst then
      if ds.isEmpty then .returned []
      else
        match (rs.map (·.result)).getD firstIdx (.returned false) with
        | .raised e => .raised e
        | .returned _ => .raised .typeError
    else
      .returned
        (((ds.zip (rs.map (·.result))).filter
          (fun p => resultFalsy p.2)).map (·.1))
  { result := res, gitCalls := upd.2.2 ++ taskCalls,
    updateResult := if skipRepoUpdate then none else some upd.1 }

/-- The exact legacy trailing paragraph appended to descriptions by
`store_productdocset_json` (metaprocess.py line 354). -/
def legacyTail : String :=
  "<p>The default view of this page is the ‘Table of Contents’ sorting order. To search for a particular document, you can narrow down the results using the ‘Filter as you type’ option. It dynamically filters the document titles and descriptions for what you enter.</p>"

/-- The legacy trailing paragraph as a character list. -/
def legacyTailL : List Char := legacyTail.toList

/-- The pattern of the description ampersand normalization,
`.replace("& ", "&amp; ")` (metaprocess.py line 360). -/
def ampPat : List Char := ['&', ' ']

/-- The replacement of the description ampersand normalization. -/
def ampRep : List Char := "&amp; ".toList

/-- The conditional append of the legacy paragraph (metaprocess.py lines
356-358): `if legacy_tail not in desc.description: desc.description +=
legacy_tail`. -/
def appendTail (s : List Char) : List Char :=
  if listContains legacyTailL s then s else s ++ legacyTailL

/-- The full description normalization of `store_productdocset_json`
(lines 356-360): conditionally append the legacy paragraph, then encode
`"& "` as `"&amp; "`. -/
def normDescL (s : List Char) : List Char :=
  pyReplace ampPat ampRep (appendTail s)

/-- Description normalization lifted to strings. -/
def normalizeDescription (s : String) : String := (normDescL s.toList).asString

/-- Category title normalization (metaprocess.py line 366):
`trans.title = trans.title.replace("&", "&amp;")`. -/
def titleNormalize (t : String) : String :=
  (pyReplace ['&'] "&amp;".toList t.toList).asString

/-- Version formatting (metaprocess.py line 345): drop a trailing `".0"`. -/
def formatVersion (s : String) : String :=
  if s.endsWith ".0" then s.dropRight 2 else s

/-- Payload of one validated per-deliverable document entry.  The
`Document` pydantic model is not part of the sources under verification,
so its validated content is opaque here. -/
abbrev Document := String

/-- Modelled from the spec: `Category.from_xml_node` draws ranks for the
category translations from a module-level counter, which
`Category.reset_rank()` resets; the `Category` model class is not part of
the sources under verification.  `rankTranslations` assigns consecutive
counter values to the translations of one category. -/
def rankTranslations (r0 : Nat) : List String → List (Nat × String) × Nat
  | [] => ([], r0)
  | t :: ts =>
    let rest := rankTranslations (r0 + 1) ts
    ((r0, t) :: rest.1, rest.2)

/-- Modelled from the spec: rank assignment across the categories of one
product node, threading the module-level counter. -/
def categoriesFromNode (r0 : Nat) :
    List (List String) → List (List (Nat × String)) × Nat
  | [] => ([], r0)
  | c :: cs =>
    let rc := rankTranslations r0 c
    let rest := categoriesFromNode rc.2 cs
    (rc.1 :: rest.1, rest.2)

/-- The data one iteration of the `store_productdocset_json` loop reads
for a (product, docset) pair: stitched-tree metadata of the product node
and of the docset node, and the parsed content of the discovered artifact
files (`none` for a file that is empty or fails validation and is
therefore skipped). -/
structure DocsetInput where
  product : String
  docset : String
  productName : String
  acronym : Option String
  lifecycle : Option String
  rawDescriptions : List String
  rawCategories : List (List String)
  artifactFiles : List (Option Document)

/-- The manifest value serialized to `<product>/<docset>.json`.  Since
`json.dump` is a deterministic injective serializer of this value, equal
`ManifestV` values mean byte-identical output files. -/
structure ManifestV where
  productname : String
  acronym : String
  version : String
  lifecycle : String
  hideProductname : Bool
  descriptions : List String
  categories : List (List (Nat × String))
  documents : List Document
  deriving Repr, DecidableEq

/-- One iteration body of `store_productdocset_json` (metaprocess.py lines
340-419) for a (product, docset) pair: normalize the descriptions, rank
and normalize the categories (threading the rank counter `r0`), format the
version, default the acronym to the upper-cased product id, default the
lifecycle to the empty string, and keep the successfully parsed artifact
documents.  Returns the manifest and the rank counter after extraction. -/
def buildManifest (r0 : Nat) (inp : DocsetInput) : ManifestV × Nat :=
  let descs := inp.rawDescriptions.map normalizeDescription
  let catsR := categoriesFromNode r0 inp.rawCategories
  let cats := catsR.1.map (fun c => c.map (fun p => (p.1, titleNormalize p.2)))
  ({ productname := inp.productName,
     acronym := match inp.acronym with
       | some a => a
       | none => inp.product.toUpper,
     version := formatVersion inp.docset,
     lifecycle := inp.lifecycle.getD "",
     hideProductname := false,
     descriptions := descs,
     categories := cats,
     documents := inp.artifactFiles.filterMap id }, catsR.2)

/-- The manifest files on disk, keyed by (product, docset). -/
def ManifestStore := String × String → Option ManifestV

/-- State carried across `store_productdocset_json` iterations: the
manifest files written so far and the module-level category rank
counter. -/
structure AggState where
  store : ManifestStore
  rank : Nat

/-- Writing one manifest file: `open(jsonfile, "w")` truncates, so the
write replaces whatever was stored for that (product, docset) before. -/
def applyWrite (st : ManifestStore) (k : String × String) (v : ManifestV) :
    ManifestStore :=
  fun q => if q = k then some v else st q

/-- One loop iteration of `store_productdocset_json`: build the manifest
with the current rank counter, overwrite the (product, docset) file, and
execute `Category.reset_rank()` (line 419). -/
def storeStep (s : AggState) (inp : DocsetInput) : AggState :=
  { store := applyWrite s.store (inp.product, inp.docset) (buildManifest s.rank inp).1,
    rank := 0 }

/-- Embedding of `store_productdocset_json` (metaprocess.py lines
327-419): iterate over the (product, docset, files) triples produced by
`collect_files_flat` on the unchanged tree and artifact cache. -/
def storeProductdocsetJson (s : AggState) : List DocsetInput → AggState
  | [] => s
  | inp :: rest => storeProductdocsetJson (storeStep s inp) rest

/-- The manifest a docset input is written with when the rank counter is
zero at the start of its iteration (which `reset_rank` guarantees). -/
def manifestFor (inp : DocsetInput) : ManifestV := (buildManifest 0 inp).1

/-- The pure file-store effect of one aggregation run: overwrite the
(product, docset) file of each input in order. -/
def applyWrites (st : ManifestStore) : List DocsetInput → ManifestStore
  | [] => st
  | inp :: rest =>
    applyWrites (applyWrite st (inp.product, inp.docset) (manifestFor inp)) rest

/-- The last manifest written for a key by a run over `inps`, if any. -/
def lastManifest (q : String × String) : List DocsetInput → Option ManifestV
  | [] => none
  | inp :: rest =>
    match lastManifest q rest with
    | some v => some v
    | none =>
      if q = (inp.product, inp.docset) then some (manifestFor inp) else none

/-- One doctype batch of the orchestrating `process` call, together with
the scheduling choice of which of its tasks completes first (only
relevant in fail-fast mode). -/
structure MetaBatch where
  deliverables : List Deliverable
  firstIdx : Nat

/-- Observable outcome of the orchestrating `process` call. -/
structure ProcessOutput where
  exitCode : Nat
  reportedFailures : List String
  aggState : AggState

/-- `asyncio.gather` without `return_exceptions`: if some task raised, the
exception propagates; otherwise all results are collected in order. -/
def gatherFirstError {α : Type} : List (PyResult α) → PyResult (List α)
  | [] => .returned []
  | r :: rest =>
    match r with
    | .raised e => .raised e
    | .returned v =>
      match gatherFirstError rest with
      | .raised e => .raised e
      | .returned vs => .returned (v :: vs)

/-- Embedding of the orchestrating `process` (metaprocess.py lines
421-491): run `process_doctype` per requested doctype, gather (without
`return_exceptions`, so a raising batch aborts the whole call), then
unconditionally run `store_productdocset_json`, report every failed
deliverable's `full_id` on stderr, and return exit code 1 exactly when
the concatenated failure list is non-empty, else 0. -/
def processMeta (env : Env) (batches : List MetaBatch)
    (oracles : Deliverable → DelivOracle) (cloneOk : String → Bool)
    (store0 : ManifestStore) (aggInputs : List DocsetInput)
    (exitfirst : Bool) (skipRepoUpdate : Bool) : PyResult ProcessOutput :=
  let rs := batches.map (fun b =>
    (processDoctype env b.deliverables oracles cloneOk exitfirst
      skipRepoUpdate b.firstIdx).result)
  match gatherFirstError rs with
  | .raised e => .raised e
  | .returned lists =>
    let allFailed := lists.flatten
    .returned
      { exitCode := if allFailed.isEmpty then 0 else 1,
        reportedFailures := allFailed.map (·.fullId),
        aggState := storeProductdocsetJson ⟨store0, 0⟩ aggInputs }

/-- The failure list one collect-all batch produces: the deliverables
whose task returned `False` (proved below to equal the `process_doctype`
result in collect-all mode). -/
def batchFailed (env : Env) (ds : List Deliverable)
    (oracles : Deliverable → DelivOracle) (cloneOk : String → Bool)
    (skipU : Bool) : List Deliverable :=
  ds.filter (fun d =>
    resultFalsy (processDeliverable (doctypeEnv env ds cloneOk skipU) d
      (oracles d)).result)

/-- All failed deliverables of a collect-all `process` run, in batch
order. -/
def allFailed (env : Env) (batches : List MetaBatch)
    (oracles : Deliverable → DelivOracle) (cloneOk : String → Bool)
    (skipU : Bool) : List Deliverable :=
  (batches.map (fun b =>
    batchFailed env b.deliverables oracles cloneOk skipU)).flatten

/-- The exit code of a `process` call, when it returned one. -/
def exitCodeOf : PyResult ProcessOutput → Option Nat
  | .returned out => some out.exitCode
  | .raised _ => none

/-- State of one `PersistentOnErrorTemporaryDirectory`: whether the
directory tree is on disk and whether the `TemporaryDirectory` cleanup
finalizer is still attached (an attached finalizer deletes the directory
upon garbage collection). -/
structure TempDirState where
  present : Bool
  finalizerAttached : Bool
  deriving Repr, DecidableEq

/-- Embedding of `PersistentOnErrorTemporaryDirectory.__exit__`
(contextmgr.py lines 128-150): the finalizer is always detached first;
when `exc_type` is `None` the tree is removed with `shutil.rmtree`, whose
`OSError` (modelled by `rmtreeOk = false`) is caught and logged, leaving
the directory in place; when an exception is carried, nothing is
removed. -/
def tempdirExit (s : TempDirState) (excType : Option PyExc)
    (rmtreeOk : Bool) : TempDirState :=
  let s1 : TempDirState := { s with finalizerAttached := false }
  match excType with
  | none => if rmtreeOk then { s1 with present := false } else s1
  | some _ => s1

/-- One `<deliverable>` element as read by `_group_by_repo`
(cmd_check/process.py lines 16-37): the text of its `dc` child (`none`
when the element is missing), the text of its `branch` child (`none` when
the element is missing), and the `remote` attribute of the enclosing
docset's `builddocs/git` element (`none` when no such ancestor exists). -/
structure DeliNode where
  dc : Option String
  branch : Option String
  repo : Option String
  deriving Repr, DecidableEq

/-- The grouping key and dc filename contributed by one deliverable node,
or `none` when the node is skipped: `if repo and dcfile` keeps only nodes
whose repo and dc file are present and non-empty (Python truthiness), and
the branch defaults to `"main"` when the branch element is absent. -/
def groupKey (d : DeliNode) : Option ((String × String) × String) :=
  match d.repo, d.dc with
  | some r, some f =>
    if r.isEmpty || f.isEmpty then none
    else some ((r, d.branch.getD "main"), f)
  | _, _ => none

/-- The dc filename the node contributes to the group `k`, if any. -/
def groupEntry (k : String × String) (d : DeliNode) : Option String :=
  match groupKey d with
  | some (q, f) => if q = k then some f else none
  | none => none

/-- Python `dict.setdefault(key, []).append(value)` on an
insertion-ordered association list. -/
def addToGroups (gs : List ((String × String) × List String))
    (k : String × String) (v : String) :
    List ((String × String) × List String) :=
  match gs with
  | [] => [(k, [v])]
  | (q, vs) :: rest =>
    if q = k then (q, vs ++ [v]) :: rest else (q, vs) :: addToGroups rest k v

/-- Embedding of `_group_by_repo` (cmd_check/process.py lines 16-37). -/
def groupByRepo (ds : List DeliNode) :
    List ((String × String) × List String) :=
  ds.foldl (fun gs d =>
    match groupKey d with
    | some (k, f) => addToGroups gs k f
    | none => gs) []

/-- Lookup of one group's file list (a Python dict lookup; the association
list built by `addToGroups` has unique keys). -/
def lookupGroup (k : String × String) :
    List ((String × String) × List String) → List String
  | [] => []
  | (q, vs) :: rest => if q = k then vs else lookupGroup k rest

/-- Embedding of the verification loop of `process_check_files`
(cmd_check/process.py lines 76-96) over the computed groups.  `cloneRes
url` is the result of `clone_bare` for the group's repository; `lsTree url
branch` is modelled from the spec (`list_tree(branch) -> set[path]`): the
`ls_tree` method is called here but is not part of the sources under
verification; per the spec it lists the file paths at the tip of the
branch in the mirror, without a checkout and without mutating the mirror
(it is a pure function here, so it cannot mutate anything).  When the
repository cannot be accessed every dc file of the group is reported
missing; otherwise exactly the dc files absent from the listing are
appended, in order. -/
def processCheckFiles (cloneRes : String → Bool)
    (lsTree : String → String → List String)
    (groups : List ((String × String) × List String)) : List String :=
  groups.foldl (fun missing g =>
    if cloneRes g.1.1 then
      missing ++ g.2.filter (fun dc => !((lsTree g.1.1 g.1.2).contains dc))
    else missing ++ g.2) []

/-- The check subcommand end to end on resolved deliverable nodes:
group by (repository remote, branch), then verify each group. -/
def processCheck (ds : List DeliNode) (cloneRes : String → Bool)
    (lsTree : String → String → List String) : List String :=
  processCheckFiles cloneRes lsTree (groupByRepo ds)

/-- A concrete deliverable used by the concrete evaluation theorems; all
samples share one remote URL, as in the spec's fail-fast example. -/
def sampleDeliverable (tag : String) : Deliverable :=
  { productid := "sles", docsetid := "15-SP6", lang := "en-us",
    gitUrl := "https://example.org/doc.git", branch := "main",
    subdir := "docs", dcfile := "DC-" ++ tag, fmtPdf := true,
    fmtSinglehtml := false, relpath := "sles/15-SP6/en-us",
    htmlPath := "/sles/html/" ++ tag, pdfPath := "/sles/pdf/" ++ tag,
    singlehtmlPath := "/sles/shtml/" ++ tag, language := "en-us",
    fullId := "sles/15-SP6/en-us:" ++ tag }

/-- An artifact with every patchable field unset. -/
def emptyJson : JsonDoc :=
  { dcfile := none, formatHtml := none, formatPdf := none,
    formatSinglehtml := none, lang := none }

/-- An oracle under which every effectful step of `process_deliverable`
succeeds. -/
def okOracle : DelivOracle :=
  { mkdirExc := none, worktreeExc := none, dapsLaunchExc := none,
    dapsReturncode := 0, dapsArtifact := emptyJson, editJsonExc := none }

/-- The environment of the concrete evaluation theorems: envconfig is set
and the shared sample mirror exists. -/
def sampleEnv : Env :=
  { envconfigPresent := true,
    mirrorDirs := [slugOf "https://example.org/doc.git"] }

/-- The five deliverables of the spec's fail-fast example. -/
def sampleBatch : List Deliverable :=
  [sampleDeliverable "a", sampleDeliverable "b", sampleDeliverable "c",
   sampleDeliverable "d", sampleDeliverable "e"]

/-- Oracles under which exactly the second sample deliverable fails (its
DAPS invocation exits non-zero) and every other one succeeds. -/
def sampleOracles (d : Deliverable) : DelivOracle :=
  if d.dcfile = "DC-b" then { okOracle with dapsReturncode := 1 } else okOracle

theorem listStartsWith_iff (p : List Char) :
    ∀ l, listStartsWith p l = true ↔ ∃ v, l = p ++ v := by
  induction p with
  | nil =>
    intro l
    simp [listStartsWith]
  | cons a as ih =>
    intro l
    cases l with
    | nil =>
      simp [listStartsWith]
    | cons b bs =>
      simp only [listStartsWith]
      constructor
      · intro h
        by_cases hab : a = b
        · rw [if_pos hab] at h
          obtain ⟨v, hv⟩ := (ih bs).mp h
          exact ⟨v, by simp [hab, hv]⟩
        · rw [if_neg hab] at h
          exact absurd h (by simp)
      · rintro ⟨v, hv⟩
        rw [List.cons_append] at hv
        injection hv with h1 h2
        subst h1
        rw [if_pos rfl]
        exact (ih bs).mpr ⟨v, h2⟩

theorem listStartsWith_append_self (p y : List Char) :
    listStartsWith p (p ++ y) = true :=
  (listStartsWith_iff p (p ++ y)).mpr ⟨y, rfl⟩

theorem pyReplace_of_not_contains (pat rep : List Char) :
    ∀ l, listContains pat l = false → pyReplace pat rep l = l := by
  intro l
  induction l with
  | nil =>
    intro _
    simp [pyReplace]
  | cons c rest ih =>
    intro h
    simp only [listContains, Bool.or_eq_false_iff] at h
    rw [pyReplace, dif_neg (by simp [h.1])]
    rw [ih h.2]

theorem listContains_ampRep_append (X : List Char) :
    listContains ampPat (ampRep ++ X) = listContains ampPat X := rfl

theorem ampPat_ne_nil : ampPat ≠ [] := by decide

theorem ampStartsTwo (c1 c2 : Char) (t : List Char) :
    listStartsWith ampPat (c1 :: c2 :: t) =
      (decide (('&' : Char) = c1) && decide ((' ' : Char) = c2)) := by
  simp only [ampPat, listStartsWith]
  by_cases h1 : ('&' : Char) = c1
  · by_cases h2 : (' ' : Char) = c2
    · simp [h1, h2]
    · simp [h1, h2]
  · simp [h1]

theorem startsWith_amp_cons (c : Char) (rest : List Char) :
    listStartsWith ampPat (c :: rest) = true ↔
      c = '&' ∧ ∃ v, rest = ' ' :: v := by
  rw [listStartsWith_iff]
  constructor
  · rintro ⟨v, hv⟩
    rw [show ampPat ++ v = '&' :: ' ' :: v from rfl] at hv
    injection hv with h1 h2
    exact ⟨h1, v, h2⟩
  · rintro ⟨hc, v, hv⟩
    exact ⟨v, by rw [hc, hv]; rfl⟩

theorem startsWith_sp_false (rest : List Char) (h : listStartsWith [' '] rest = false) :
    listStartsWith [' '] (pyReplace ampPat ampRep rest) = false := by
  cases rest with
  | nil =>
    simp [pyReplace, listStartsWith]
  | cons d t =>
    have hd : ((' ' : Char) = d) = False := by
      simp only [listStartsWith] at h
      by_cases hd : (' ' : Char) = d
      · rw [if_pos hd] at h
        simp [listStartsWith] at h
      · simp [hd]
    rw [pyReplace]
    by_cases hc : ampPat ≠ [] ∧ listStartsWith ampPat (d :: t) = true
    · rw [dif_pos hc]
      simp [ampRep, listStartsWith]
    · rw [dif_neg hc]
      simp [listStartsWith, hd]

theorem pyReplace_amp_free (l : List Char) :
    listContains ampPat (pyReplace ampPat ampRep l) = false := by
  induction l using pyReplace.induct ampPat ampRep with
  | case1 =>
    simp [pyReplace, listContains, ampPat]
  | case2 c rest h ih =>
    obtain ⟨hc, v, hv⟩ := (startsWith_amp_cons c rest).mp h.2
    subst hc
    subst hv
    rw [pyReplace, dif_pos h]
    rw [show List.drop ampPat.length ('&' :: ' ' :: v) = v from rfl] at ih ⊢
    rw [listContains_ampRep_append]
    exact ih
  | case3 c rest h ih =>
    rw [pyReplace, dif_neg h]
    simp only [listContains, Bool.or_eq_false_iff]
    refine ⟨?_, ih⟩
    have hs : listStartsWith ampPat (c :: rest) = false := by
      rcases Bool.eq_false_or_eq_true (listStartsWith ampPat (c :: rest)) with hb | hb
      · exact absurd ⟨ampPat_ne_nil, hb⟩ h
      · exact hb
    simp only [ampPat, listStartsWith] at hs ⊢
    by_cases hc : ('&' : Char) = c
    · rw [if_pos hc] at hs ⊢
      exact startsWith_sp_false rest hs
    · rw [if_neg hc]

theorem pyReplace_amp_idem (l : List Char) :
    pyReplace ampPat ampRep (pyReplace ampPat ampRep l) =
      pyReplace ampPat ampRep l :=
  pyReplace_of_not_contains ampPat ampRep _ (pyReplace_amp_free l)

theorem pyReplace_amp_append (y : List Char) :
    ∀ x, (x.getLast? = some '&' → y.head? ≠ some ' ') →
      pyReplace ampPat ampRep (x ++ y) =
        pyReplace ampPat ampRep x ++ pyReplace ampPat ampRep y := by
  intro x
  induction x using pyReplace.induct ampPat ampRep with
  | case1 =>
    intro _
    simp [pyReplace]
  | case2 c rest h ih =>
    intro hb
    obtain ⟨hc, v, hv⟩ := (startsWith_amp_cons c rest).mp h.2
    subst hc
    subst hv
    have ih' := ih
    rw [show List.drop ampPat.length ('&' :: ' ' :: v) = v from rfl] at ih'
    rw [List.cons_append, List.cons_append]
    rw [pyReplace, dif_pos ⟨ampPat_ne_nil, by
      rw [startsWith_amp_cons]
      exact ⟨rfl, v ++ y, rfl⟩⟩]
    rw [pyReplace, dif_pos h]
    rw [show List.drop ampPat.length ('&' :: ' ' :: (v ++ y)) = v ++ y from rfl]
    rw [show List.drop ampPat.length ('&' :: ' ' :: v) = v from rfl]
    rw [List.append_assoc]
    congr 1
    apply ih'
    intro hlast
    apply hb
    cases v with
    | nil => simp at hlast
    | cons a t =>
      rw [List.getLast?_cons_cons, List.getLast?_cons_cons]
      exact hlast
  | case3 c rest h ih =>
    intro hb
    have hs : listStartsWith ampPat (c :: rest) = false := by
      rcases Bool.eq_false_or_eq_true (listStartsWith ampPat (c :: rest)) with hb2 | hb2
      · exact absurd ⟨ampPat_ne_nil, hb2⟩ h
      · exact hb2
    have hs2 : listStartsWith ampPat (c :: (rest ++ y)) = false := by
      cases rest with
      | nil =>
        rw [List.nil_append]
        cases y with
        | nil =>
          simp [ampPat, listStartsWith]
        | cons a t =>
          rw [ampStartsTwo]
          by_cases hcc : ('&' : Char) = c
          · have hy : (a :: t).head? ≠ some ' ' := by
              apply hb
              rw [List.getLast?_singleton, ← hcc]
            have ha : ¬ ((' ' : Char) = a) := by
              intro hns
              apply hy
              rw [List.head?_cons, ← hns]
            simp [ha]
          · simp [hcc]
      | cons r t =>
        rw [List.cons_append, ampStartsTwo]
        rw [ampStartsTwo] at hs
        exact hs
    rw [List.cons_append, pyReplace, dif_neg (by simp [hs2])]
    rw [pyReplace, dif_neg h, List.cons_append]
    congr 1
    apply ih
    intro hlast
    apply hb
    cases rest with
    | nil => simp at hlast
    | cons r t =>
      rw [List.getLast?_cons_cons]
      exact hlast

theorem listContains_append_self (p : List Char) (hp : p ≠ []) :
    ∀ x y, listContains p (x ++ (p ++ y)) = true := by
  intro x
  induction x with
  | nil =>
    intro y
    cases hpp : p ++ y with
    | nil =>
      cases p with
      | nil => exact absurd rfl hp
      | cons a t => simp at hpp
    | cons a t =>
      rw [List.nil_append]
      simp only [listContains]
      rw [← hpp, listStartsWith_append_self, Bool.true_or]
  | cons c t ih =>
    intro y
    rw [List.cons_append]
    simp only [listContains]
    rw [ih y, Bool.or_true]

theorem listContains_decomp (p : List Char) :
    ∀ l, listContains p l = true → ∃ u v, l = u ++ (p ++ v) := by
  intro l
  induction l with
  | nil =>
    intro h
    rw [listContains] at h
    exact ⟨[], [], by simp [List.isEmpty_iff.mp h]⟩
  | cons c rest ih =>
    intro h
    rw [listContains, Bool.or_eq_true] at h
    rcases h with h | h
    · obtain ⟨v, hv⟩ := (listStartsWith_iff p _).mp h
      exact ⟨[], v, by simp [hv]⟩
    · obtain ⟨u, v, huv⟩ := ih h
      exact ⟨c :: u, v, by simp [huv]⟩

set_option maxRecDepth 40000 in
theorem legacyTail_ne_nil : legacyTailL ≠ [] := by decide

set_option maxRecDepth 40000 in
theorem legacyTail_head : legacyTailL.head? = some '<' := by decide

set_option maxRecDepth 40000 in
theorem legacyTail_last : legacyTailL.getLast? = some '>' := by decide

set_option maxRecDepth 40000 in
theorem legacyTail_amp_free : listContains ampPat legacyTailL = false := by decide

theorem legacyTail_cons : ∃ tl, legacyTailL = '<' :: tl := by
  cases h : legacyTailL with
  | nil =>
    have hh := legacyTail_head
    rw [h] at hh
    simp at hh
  | cons a tl =>
    have hh := legacyTail_head
    rw [h, List.head?_cons] at hh
    injection hh with hh
    exact ⟨tl, by rw [hh]⟩

theorem contains_tail_normDesc (s : List Char) :
    listContains legacyTailL (normDescL s) = true := by
  obtain ⟨tl, htl⟩ := legacyTail_cons
  rw [normDescL, appendTail]
  by_cases hc : listContains legacyTailL s = true
  · rw [if_pos hc]
    obtain ⟨u, v, huv⟩ := listContains_decomp legacyTailL s hc
    subst huv
    rw [pyReplace_amp_append (legacyTailL ++ v) u (by
      intro _
      rw [htl, List.cons_append, List.head?_cons]
      decide)]
    rw [pyReplace_amp_append v legacyTailL (by
      intro hl
      rw [legacyTail_last] at hl
      exact absurd hl (by decide))]
    rw [pyReplace_of_not_contains ampPat ampRep legacyTailL legacyTail_amp_free]
    exact listContains_append_self legacyTailL legacyTail_ne_nil _ _
  · rw [if_neg hc]
    rw [pyReplace_amp_append legacyTailL s (by
      intro _
      rw [legacyTail_head]
      decide)]
    rw [pyReplace_of_not_contains ampPat ampRep legacyTailL legacyTail_amp_free]
    rw [show pyReplace ampPat ampRep s ++ legacyTailL =
      pyReplace ampPat ampRep s ++ (legacyTailL ++ []) by simp]
    exact listContains_append_self legacyTailL legacyTail_ne_nil _ _

theorem normDescL_idem (s : List Char) : normDescL (normDescL s) = normDescL s := by
  have h1 : appendTail (normDescL s) = normDescL s := by
    rw [appendTail, if_pos (contains_tail_normDesc s)]
  conv_lhs => rw [normDescL, h1]
  rw [normDescL]
  exact pyReplace_amp_idem _

theorem normalizeDescription_idem (s : String) :
    normalizeDescription (normalizeDescription s) = normalizeDescription s := by
  unfold normalizeDescription
  rw [show ((normDescL s.toList).asString).toList = normDescL s.toList from rfl]
  rw [normDescL_idem]

theorem storeRun_eq_applyWrites (inps : List DocsetInput) :
    ∀ st : ManifestStore,
      storeProductdocsetJson ⟨st, 0⟩ inps = ⟨applyWrites st inps, 0⟩ := by
  induction inps with
  | nil =>
    intro st
    rfl
  | cons inp rest ih =>
    intro st
    rw [storeProductdocsetJson, applyWrites]
    exact ih _

theorem applyWrites_lookup (inps : List DocsetInput) :
    ∀ (st : ManifestStore) (q : String × String),
      applyWrites st inps q =
        match lastManifest q inps with
        | some v => some v
        | none => st q := by
  induction inps with
  | nil =>
    intro st q
    rfl
  | cons inp rest ih =>
    intro st q
    rw [applyWrites, lastManifest, ih]
    cases hl : lastManifest q rest with
    | some v => rfl
    | none =>
      simp only [applyWrite]
      by_cases hq : q = (inp.product, inp.docset)
      · rw [if_pos hq, if_pos hq]
      · rw [if_neg hq, if_neg hq]

theorem processDeliverable_no_git (env : Env) (d : Deliverable)
    (o : DelivOracle) : (processDeliverable env d o).gitCloneCalls = [] := by
  unfold processDeliverable
  repeat' split
  all_goals rfl

theorem cloneBare_calls_sublist (mirrors : List String) (url : String)
    (ok : Bool) : (cloneBare mirrors url ok).2.2.Sublist [url] := by
  unfold cloneBare
  repeat' split
  all_goals simp

theorem updateReposGo_calls_sublist (cloneOk : String → Bool) :
    ∀ (urls mirrors : List String),
      (updateReposGo mirrors cloneOk urls).2.2.Sublist urls := by
  intro urls
  induction urls with
  | nil =>
    intro mirrors
    simp [updateReposGo]
  | cons url rest ih =>
    intro mirrors
    rw [updateReposGo]
    exact List.Sublist.append (cloneBare_calls_sublist mirrors url (cloneOk url)) (ih _)

theorem updateReposGo_all_fail (cloneOk : String → Bool) :
    ∀ (urls mirrors : List String),
      (∀ u ∈ urls, slugOf u ∉ mirrors ∧ cloneOk u = false) →
      updateReposGo mirrors cloneOk urls = (urls.isEmpty, mirrors, urls) := by
  intro urls
  induction urls with
  | nil =>
    intro mirrors _
    rfl
  | cons url rest ih =>
    intro mirrors h
    have hu := h url (by simp)
    rw [updateReposGo]
    rw [show cloneBare mirrors url (cloneOk url) = (false, mirrors, [url]) by
      rw [cloneBare, if_neg hu.1, hu.2, if_neg (by simp)]]
    rw [ih mirrors (fun u hu2 => h u (by simp [hu2]))]
    simp

theorem zip_filter_eq_filter (f : Deliverable → PyResult Bool) :
    ∀ ds : List Deliverable,
      (((ds.zip (ds.map f)).filter (fun p => resultFalsy p.2)).map (·.1)) =
        ds.filter (fun d => resultFalsy (f d)) := by
  intro ds
  induction ds with
  | nil => rfl
  | cons d rest ih =>
    simp only [List.map_cons, List.zip_cons_cons, List.filter_cons]
    by_cases h : resultFalsy (f d) = true
    · simp only [h, if_pos trivial, List.map_cons, ih]
    · simp only [h, List.map_cons, ih]
      rw [Bool.not_eq_true] at h
      simp [h]
      exact ih

theorem resultFalsy_eq_decide (r : PyResult Bool) :
    resultFalsy r = decide (r = PyResult.returned false) := by
  cases r with
  | raised e => simp [resultFalsy]
  | returned b => cases b <;> simp [resultFalsy]

theorem processDoctype_collect_result (env : Env) (ds : List Deliverable)
    (oracles : Deliverable → DelivOracle) (cloneOk : String → Bool)
    (skipU : Bool) (firstIdx : Nat) :
    (processDoctype env ds oracles cloneOk false skipU firstIdx).result =
      .returned (ds.filter (fun d =>
        resultFalsy (processDeliverable (doctypeEnv env ds cloneOk skipU) d
          (oracles d)).result)) := by
  unfold processDoctype
  simp only [Bool.false_eq_true, if_false, List.map_map]
  exact congrArg PyResult.returned
    (zip_filter_eq_filter
      (fun d => (processDeliverable (doctypeEnv env ds cloneOk skipU) d (oracles d)).result) ds)

theorem gatherFirstError_returned {α β : Type} (f : β → α) :
    ∀ l : List β,
      gatherFirstError (l.map (fun b => PyResult.returned (f b))) =
        PyResult.returned (l.map f) := by
  intro l
  induction l with
  | nil => rfl
  | cons b rest ih =>
    rw [List.map_cons, gatherFirstError, ih, List.map_cons]

theorem processDoctype_taskCalls (ds : List Deliverable)
    (oracles : Deliverable → DelivOracle) (env2 : Env) :
    ((ds.map (fun d => processDeliverable env2 d (oracles d))).map
      (·.gitCloneCalls)).flatten = [] := by
  induction ds with
  | nil => rfl
  | cons d rest ih =>
    simp only [List.map_cons, List.flatten_cons, processDeliverable_no_git,
      List.nil_append]
    exact ih

theorem processMeta_collect (env : Env) (batches : List MetaBatch)
    (oracles : Deliverable → DelivOracle) (cloneOk : String → Bool)
    (store0 : ManifestStore) (aggInputs : List DocsetInput) (skipU : Bool) :
    processMeta env batches oracles cloneOk store0 aggInputs false skipU =
      PyResult.returned
        { exitCode :=
            if (allFailed env batches oracles cloneOk skipU).isEmpty then 0 else 1,
          reportedFailures :=
            (allFailed env batches oracles cloneOk skipU).map (·.fullId),
          aggState := storeProductdocsetJson ⟨store0, 0⟩ aggInputs } := by
  have hmap : batches.map (fun b =>
      (processDoctype env b.deliverables oracles cloneOk false skipU
        b.firstIdx).result) =
      batches.map (fun b => PyResult.returned
        (batchFailed env b.deliverables oracles cloneOk skipU)) := by
    apply List.map_congr_left
    intro b _
    rw [processDoctype_collect_result]
    rfl
  simp only [processMeta]
  rw [hmap, gatherFirstError_returned
    (fun b => batchFailed env b.deliverables oracles cloneOk skipU) batches]
  rfl

/-- Claim C1 (code bug): the claim (and the spec) say that in fail-fast
mode `process_doctype` cancels all still-pending tasks on the first
observed failure and returns a one-entry failure list.  The source instead
executes `success, deliverable = await task` on the first completed task
(metaprocess.py line 304), but `process_deliverable` returns a plain
`bool`; unpacking the non-iterable `bool` raises `TypeError`.  Evaluating
the embedding at the spec's own example (five deliverables sharing one
repository, the second fails quickly and completes first, all mirrors
present) shows `process_doctype` raises `TypeError` instead of returning
any failure list. -/
theorem c1_exitfirst_unpack_raises :
    (processDoctype sampleEnv sampleBatch sampleOracles (fun _ => true)
      true false 1).result = PyResult.raised PyExc.typeError := rfl

/-- Claim C2, counterexample: a deliverable whose task raises (here:
`outputdir.mkdir` raises an `OSError` before the `try` block) is NOT in
the returned failure list, because `gather(..., return_exceptions=True)`
stores the exception object in the results and `if not success` treats
that truthy object as success.  The claim demands the failure list contain
exactly the deliverables whose task failed or raised, i.e. `[d]` here; the
code returns `[]`. -/
theorem c2_raised_task_counted_as_success_cex :
    (processDeliverable
        (doctypeEnv sampleEnv [sampleDeliverable "x"] (fun _ => true) false)
        (sampleDeliverable "x")
        { okOracle with mkdirExc := some PyExc.osError }).result =
      PyResult.raised PyExc.osError ∧
    (processDoctype sampleEnv [sampleDeliverable "x"]
        (fun _ => { okOracle with mkdirExc := some PyExc.osError })
        (fun _ => true) false false 0).result = PyResult.returned [] :=
  ⟨rfl, rfl⟩

/-- Claim C2 (amended): in collect-all mode `process_doctype` awaits every
task and returns exactly the deliverables whose task RETURNED `False`, in
the batch's original order; a task that raised an exception is counted as
successful (its exception object is truthy under `if not success`).  When
the concatenated failure list is non-empty the orchestrating `process`
returns exit code 1, else 0. -/
theorem c2_collect_all_amended :
    (∀ (env : Env) (ds : List Deliverable)
        (oracles : Deliverable → DelivOracle) (cloneOk : String → Bool)
        (skipU : Bool) (firstIdx : Nat),
      (processDoctype env ds oracles cloneOk false skipU firstIdx).result =
        PyResult.returned (ds.filter (fun d =>
          decide ((processDeliverable (doctypeEnv env ds cloneOk skipU) d
            (oracles d)).result = PyResult.returned false))))
    ∧ (∀ (env : Env) (batches : List MetaBatch)
        (oracles : Deliverable → DelivOracle) (cloneOk : String → Bool)
        (store0 : ManifestStore) (aggInputs : List DocsetInput)
        (skipU : Bool),
      exitCodeOf (processMeta env batches oracles cloneOk store0 aggInputs
          false skipU) =
        some (if (allFailed env batches oracles cloneOk skipU).isEmpty
          then 0 else 1)) := by
  constructor
  · intro env ds oracles cloneOk skipU firstIdx
    rw [processDoctype_collect_result]
    congr 1
    apply List.filter_congr
    intro d _
    rw [resultFalsy_eq_decide]
  · intro env batches oracles cloneOk store0 aggInputs skipU
    rw [processMeta_collect]
    rfl

/-- Claim C3 (confirmed): running `store_productdocset_json` twice on an
unchanged stitched tree and unchanged artifact files yields the same
manifest value for every (product, docset) file, hence byte-identical
output under the deterministic `json.dump` serialization (first
conjunct); the legacy description normalization is idempotent as a string
function, so the trailing paragraph is appended only when absent and never
twice (second conjunct); and the store after a run is fully determined by
the last write per key, falling back to the pre-existing file only for
keys the run never writes — each written file is unconditionally
overwritten (third conjunct). -/
theorem c3_aggregation_idempotent :
    (∀ (st : ManifestStore) (inps : List DocsetInput),
      (storeProductdocsetJson (storeProductdocsetJson ⟨st, 0⟩ inps)
        inps).store = (storeProductdocsetJson ⟨st, 0⟩ inps).store)
    ∧ (∀ s : String,
      normalizeDescription (normalizeDescription s) = normalizeDescription s)
    ∧ (∀ (st : ManifestStore) (inps : List DocsetInput) (q : String × String),
      (storeProductdocsetJson ⟨st, 0⟩ inps).store q =
        match lastManifest q inps with
        | some v => some v
        | none => st q) := by
  refine ⟨?_, normalizeDescription_idem, ?_⟩
  · intro st inps
    rw [storeRun_eq_applyWrites inps st, storeRun_eq_applyWrites inps]
    funext q
    show applyWrites (applyWrites st inps) inps q = applyWrites st inps q
    rw [applyWrites_lookup inps, applyWrites_lookup inps]
    cases lastManifest q inps with
    | some v => rfl
    | none => rfl
  · intro st inps q
    rw [storeRun_eq_applyWrites inps st]
    exact applyWrites_lookup inps st q

/-- Claim C4 (confirmed): in one batch with the repository update not
skipped, the git clone attempts of `process_doctype` are exactly those of
`update_repositories`, which deduplicates the URLs into a set, so at most
one clone subprocess is attempted per unique remote URL (the
per-deliverable tasks never clone: the mirror either exists, making
`clone_bare` return immediately, or the deliverable fails beforehand at
the bare-repository check); and `clone_bare` returns success without
invoking git whenever the mirror directory already exists. -/
theorem c4_clone_dedup :
    (∀ (env : Env) (ds : List Deliverable)
        (oracles : Deliverable → DelivOracle) (cloneOk : String → Bool)
        (exitfirst : Bool) (firstIdx : Nat) (url : String),
      ((processDoctype env ds oracles cloneOk exitfirst false
        firstIdx).gitCalls).count url ≤ 1)
    ∧ (∀ (mirrors : List String) (url : String) (ok : Bool),
        slugOf url ∈ mirrors → cloneBare mirrors url ok = (true, mirrors, [])) := by
  constructor
  · intro env ds oracles cloneOk exitfirst firstIdx url
    have hcalls :
        (processDoctype env ds oracles cloneOk exitfirst false
          firstIdx).gitCalls =
        (doctypeUpdate env ds cloneOk false).2.2 ++
          ((ds.map (fun d => processDeliverable (doctypeEnv env ds cloneOk false)
            d (oracles d))).map (·.gitCloneCalls)).flatten := rfl
    rw [hcalls, processDoctype_taskCalls, List.append_nil]
    have hupd : doctypeUpdate env ds cloneOk false =
        updateReposGo env.mirrorDirs cloneOk
          ((ds.map (fun d => d.gitUrl)).dedup) := rfl
    rw [hupd]
    have hsub := updateReposGo_calls_sublist cloneOk
      ((ds.map (fun d => d.gitUrl)).dedup) env.mirrorDirs
    calc ((updateReposGo env.mirrorDirs cloneOk
            ((ds.map (fun d => d.gitUrl)).dedup)).2.2).count url
        ≤ ((ds.map (fun d => d.gitUrl)).dedup).count url :=
          hsub.subperm.count_le url
      _ ≤ 1 := List.nodup_iff_count_le_one.mp (List.nodup_dedup _) url
  · intro mirrors url ok h
    rw [cloneBare, if_pos h]

/-- Witness for claim C4 at a concrete input: the sample mirror already
exists, so `clone_bare` returns success with no git invocation. -/
theorem c4_clone_dedup_witness :
    cloneBare [slugOf "https://example.org/doc.git"]
        "https://example.org/doc.git" true =
      (true, [slugOf "https://example.org/doc.git"], []) :=
  c4_clone_dedup.2 _ _ _ (by simp)

/-- Claim C5, counterexample: `outputdir.mkdir(parents=True,
exist_ok=True)` (metaprocess.py line 122) runs before the `try` block; if
it raises an `OSError` (for example, permission denied on the cache
directory), the exception propagates out of `process_deliverable` instead
of being converted into a boolean failure result — the claim says no
exception ever propagates to the caller. -/
theorem c5_mkdir_exception_escapes_cex :
    (processDeliverable sampleEnv (sampleDeliverable "m")
      { okOracle with mkdirExc := some PyExc.osError }).result =
      PyResult.raised PyExc.osError := rfl

/-- Claim C5 (amended): `process_deliverable` propagates an exception to
its caller exactly when the output-directory creation (before the `try`
block) raises — which requires envconfig to be present and the bare
repository to exist, the earlier checks returning `False` without raising;
any exception from the steps inside the `try` block (worktree creation,
build subprocess, artifact patching) is caught and converted into the
failure result `False` together with a log message carrying the
deliverable's `full_id`. -/
theorem c5_exception_containment_amended :
    ∀ (env : Env) (d : Deliverable) (o : DelivOracle),
      (∀ e : PyExc,
        ((processDeliverable env d o).result = PyResult.raised e ↔
          (o.mkdirExc = some e ∧ env.envconfigPresent = true ∧
            slugOf d.gitUrl ∈ env.mirrorDirs)))
      ∧ (∀ s : FailSite, (processDeliverable env d o).failSite = some s →
          s ≠ FailSite.noEnvconfig → s ≠ FailSite.bareRepoMissing →
          ((processDeliverable env d o).result = PyResult.returned false ∧
           (processDeliverable env d o).loggedId = some d.fullId)) := by
  intro env d o
  unfold processDeliverable
  by_cases h1 : env.envconfigPresent
  · by_cases h2 : slugOf d.gitUrl ∈ env.mirrorDirs
    · rcases hmk : o.mkdirExc with _ | e0
      · rcases hwt : o.worktreeExc with _ | e1
        · rcases hdl : o.dapsLaunchExc with _ | e2
          · by_cases hrc : o.dapsReturncode ≠ 0
            · simp [h1, h2, hmk, hwt, hdl, hrc]
            · rcases hed : o.editJsonExc with _ | e3
              · simp [h1, h2, hmk, hwt, hdl, hrc, hed]
              · simp [h1, h2, hmk, hwt, hdl, hrc, hed]
          · simp [h1, h2, hmk, hwt, hdl]
        · simp [h1, h2, hmk, hwt]
      · simp [h1, h2, hmk]
    · simp [h1, h2]
  · simp [h1]

/-- Witness for claim C5 at a concrete input: a worktree-creation failure
is caught and yields `False` with a log entry naming the deliverable. -/
theorem c5_exception_containment_witness :
    (processDeliverable sampleEnv (sampleDeliverable "w5")
      { okOracle with worktreeExc := some PyExc.runtimeError }).result =
        PyResult.returned false ∧
    (processDeliverable sampleEnv (sampleDeliverable "w5")
      { okOracle with worktreeExc := some PyExc.runtimeError }).loggedId =
        some (sampleDeliverable "w5").fullId :=
  (c5_exception_containment_amended sampleEnv (sampleDeliverable "w5")
      { okOracle with worktreeExc := some PyExc.runtimeError }).2
    FailSite.worktreeFailed rfl (by decide) (by decide)

theorem lookupGroup_addToGroups (k2 k : String × String) (v : String) :
    ∀ gs, lookupGroup k2 (addToGroups gs k v) =
      if k2 = k then lookupGroup k2 gs ++ [v] else lookupGroup k2 gs := by
  intro gs
  induction gs with
  | nil =>
    simp only [addToGroups, lookupGroup]
    by_cases hk : k2 = k
    · subst hk
      simp
    · rw [if_neg (fun h => hk h.symm), if_neg hk]
  | cons p rest ih =>
    obtain ⟨q, vs⟩ := p
    simp only [addToGroups]
    by_cases hq : q = k
    · rw [if_pos hq]
      simp only [lookupGroup]
      by_cases hk2 : q = k2
      · rw [if_pos hk2, if_pos (hk2.symm.trans hq), if_pos hk2]
      · rw [if_neg hk2, if_neg (fun h => hk2 (hq.trans h.symm)), if_neg hk2]
    · rw [if_neg hq]
      simp only [lookupGroup, ih]
      by_cases hq2 : q = k2
      · rw [if_pos hq2, if_neg (fun h => hq (hq2.trans h)), if_pos hq2]
      · rw [if_neg hq2, if_neg hq2]

theorem groupFoldl_lookup (k : String × String) :
    ∀ (ds : List DeliNode) (gs : List ((String × String) × List String)),
      lookupGroup k (ds.foldl (fun gs d =>
        match groupKey d with
        | some (q, f) => addToGroups gs q f
        | none => gs) gs) =
      lookupGroup k gs ++ ds.filterMap (groupEntry k) := by
  intro ds
  induction ds with
  | nil =>
    intro gs
    simp
  | cons d rest ih =>
    intro gs
    rw [List.foldl_cons, List.filterMap_cons]
    cases hk : groupKey d with
    | none =>
      rw [ih]
      simp only [groupEntry, hk]
    | some p =>
      obtain ⟨q, f⟩ := p
      rw [ih, lookupGroup_addToGroups]
      simp only [groupEntry, hk]
      by_cases hkq : k = q
      · rw [if_pos hkq, if_pos hkq.symm]
        simp
      · rw [if_neg hkq, if_neg (fun h => hkq h.symm)]

theorem checkFiles_foldl (cloneRes : String → Bool)
    (lsTree : String → String → List String) :
    ∀ (groups : List ((String × String) × List String)) (acc : List String),
      groups.foldl (fun missing g =>
        if cloneRes g.1.1 then
          missing ++ g.2.filter (fun dc => !((lsTree g.1.1 g.1.2).contains dc))
        else missing ++ g.2) acc =
      acc ++ (groups.map (fun g =>
        if cloneRes g.1.1 then
          g.2.filter (fun dc => !((lsTree g.1.1 g.1.2).contains dc))
        else g.2)).flatten := by
  intro groups
  induction groups with
  | nil =>
    intro acc
    simp
  | cons g rest ih =>
    intro acc
    rw [List.foldl_cons, ih, List.map_cons, List.flatten_cons]
    by_cases hc : cloneRes g.1.1
    · rw [if_pos hc, if_pos hc, List.append_assoc]
    · rw [if_neg hc, if_neg hc, List.append_assoc]

/-- Claim C6 (confirmed; `ls_tree` itself is not in the sources and is
modelled from the spec as a pure listing of the branch tip): the check
subcommand's report is, group by group, the group's dc files filtered down
to those absent from the mirror listing of the group's (repository,
branch) — with every file of a group reported when the repository cannot
be accessed at all (first conjunct); the groups are keyed by (remote URL,
branch with `"main"` as default when the branch element is absent) and a
group's file list holds exactly the dc filenames of the deliverables that
resolve to that key, in document order (second conjunct); and on the
spec's example — files README.md and LICENSE in one repository, listing
containing only README.md — the report is exactly [LICENSE] (third
conjunct). -/
theorem c6_check_missing_files :
    (∀ (ds : List DeliNode) (cloneRes : String → Bool)
        (lsTree : String → String → List String),
      processCheck ds cloneRes lsTree =
        ((groupByRepo ds).map (fun g =>
          if cloneRes g.1.1 then
            g.2.filter (fun dc => !((lsTree g.1.1 g.1.2).contains dc))
          else g.2)).flatten)
    ∧ (∀ (ds : List DeliNode) (k : String × String),
      lookupGroup k (groupByRepo ds) = ds.filterMap (groupEntry k))
    ∧ (processCheck
        [{ dc := some "README.md", branch := some "main", repo := some "R" },
         { dc := some "LICENSE", branch := some "main", repo := some "R" }]
        (fun _ => true) (fun _ _ => ["README.md"]) = ["LICENSE"]) := by
  refine ⟨?_, ?_, by rfl⟩
  · intro ds cloneRes lsTree
    have h := checkFiles_foldl cloneRes lsTree (groupByRepo ds) []
    rw [List.nil_append] at h
    exact h
  · intro ds k
    have h := groupFoldl_lookup k ds []
    rw [show lookupGroup k ([] : List ((String × String) × List String)) = []
      from rfl, List.nil_append] at h
    exact h

/-- Claim C7, counterexample: with `exitfirst=True` and a non-empty batch
the orchestrating `process` does not return any exit code: the
tuple-unpacking `TypeError` of the fail-fast loop propagates through the
un-protected `asyncio.gather` in `process`, so no manifest is written and
no failure list is surfaced — here even though every deliverable would
have succeeded, where the claim requires exit code 0 with manifests
written. -/
theorem c7_exitfirst_no_exit_code_cex :
    processMeta sampleEnv [(⟨[sampleDeliverable "a"], 0⟩ : MetaBatch)]
      (fun _ => okOracle) (fun _ => true)
      (fun _ => none) [] true false = PyResult.raised PyExc.typeError := rfl

/-- Claim C7 (amended): in collect-all mode (`exitfirst=False`) the
orchestrating `process` returns exit code 0 when every deliverable of
every batch succeeded and 1 when one or more failed; in both cases the
manifest aggregation has run unconditionally on the artifact cache before
the exit code is decided, and the `full_id` of every failed deliverable is
surfaced.  In fail-fast mode the call instead propagates the `TypeError`
of the unpacking bug, so the claim is restricted to collect-all mode. -/
theorem c7_exit_codes_amended :
    ∀ (env : Env) (batches : List MetaBatch)
      (oracles : Deliverable → DelivOracle) (cloneOk : String → Bool)
      (store0 : ManifestStore) (aggInputs : List DocsetInput) (skipU : Bool),
      processMeta env batches oracles cloneOk store0 aggInputs false skipU =
        PyResult.returned
          { exitCode := if (allFailed env batches oracles cloneOk
              skipU).isEmpty then 0 else 1,
            reportedFailures :=
              (allFailed env batches oracles cloneOk skipU).map (·.fullId),
            aggState := storeProductdocsetJson ⟨store0, 0⟩ aggInputs } := by
  intro env batches oracles cloneOk store0 aggInputs skipU
  exact processMeta_collect env batches oracles cloneOk store0 aggInputs skipU

/-- Claim C8, counterexample: on a clean exit (`exc_type` is `None`) with
`shutil.rmtree` failing with an `OSError`, the handler logs and returns,
leaving the directory on disk — so deletion does not follow from
exception-free exit, contradicting the claimed equivalence. -/
theorem c8_rmtree_failure_cex :
    (tempdirExit { present := true, finalizerAttached := true } none
      false).present = true := rfl

/-- Claim C8 (amended): `PersistentOnErrorTemporaryDirectory.__exit__`
always detaches the cleanup finalizer first (so a preserved directory also
survives garbage collection); when an exception is carried the directory
is preserved unconditionally; when `exc_type` is `None` the tree is
removed if `shutil.rmtree` succeeds, while an `OSError` from `rmtree` is
caught and logged, leaving the directory in place — deletion on clean exit
holds up to `rmtree` succeeding, not unconditionally. -/
theorem c8_tempdir_exit_amended :
    (∀ (s : TempDirState) (e : PyExc) (ok : Bool),
      tempdirExit s (some e) ok =
        { present := s.present, finalizerAttached := false })
    ∧ (∀ s : TempDirState,
      tempdirExit s none true = { present := false, finalizerAttached := false })
    ∧ (∀ s : TempDirState,
      tempdirExit s none false =
        { present := s.present, finalizerAttached := false }) :=
  ⟨fun _ _ _ => rfl, fun _ => rfl, fun _ => rfl⟩

/-- Claim C9 (confirmed): on a successful build, `process_deliverable`
patches the artifact exactly as claimed: the `dcfile` and HTML path fields
are always set; the PDF and single-HTML paths only when the corresponding
format flag of the deliverable is set, otherwise those fields keep the
artifact's prior values; and the `lang` field is filled with the
deliverable's language only when the artifact's value is absent (null or
empty), never overwriting a present value. -/
theorem c9_artifact_patch :
    (∀ (ms : List String) (d : Deliverable) (a : JsonDoc),
      processDeliverable
          { envconfigPresent := true, mirrorDirs := slugOf d.gitUrl :: ms } d
          { mkdirExc := none, worktreeExc := none, dapsLaunchExc := none,
            dapsReturncode := 0, dapsArtifact := a, editJsonExc := none } =
        { result := PyResult.returned true, failSite := none,
          gitCloneCalls := [], artifactWritten := some (patchArtifact d a),
          loggedId := none })
    ∧ (∀ (d : Deliverable) (a : JsonDoc),
        (patchArtifact d a).dcfile = some d.dcfile ∧
        (patchArtifact d a).formatHtml = some d.htmlPath ∧
        (patchArtifact d a).formatPdf =
          (if d.fmtPdf then some d.pdfPath else a.formatPdf) ∧
        (patchArtifact d a).formatSinglehtml =
          (if d.fmtSinglehtml then some d.singlehtmlPath
            else a.formatSinglehtml) ∧
        (patchArtifact d a).lang =
          (if strTruthy a.lang then a.lang else some d.language)) := by
  constructor
  · intro ms d a
    unfold processDeliverable
    simp
  · intro d a
    unfold patchArtifact
    by_cases hp : d.fmtPdf <;> by_cases hs : d.fmtSinglehtml <;>
      by_cases hl : strTruthy a.lang <;> simp [hp, hs, hl]

/-- Claim C10, counterexample: the claim's "rather than the batch
aborting" fails in fail-fast mode: with every repository update failing,
the first completed task returns `False`, the tuple unpacking raises
`TypeError`, and `process_doctype` aborts without awaiting the remaining
tasks or returning a failure list. -/
theorem c10_exitfirst_batch_aborts_cex :
    (processDoctype { envconfigPresent := true, mirrorDirs := [] }
      [sampleDeliverable "z"] (fun _ => okOracle) (fun _ => false)
      true false 0).result = PyResult.raised PyExc.typeError := rfl

/-- Claim C10 (amended, restricted to collect-all mode by the
counterexample): `process_doctype` discards the boolean result of
`update_repositories`; when envconfig is present, every mirror is missing
and every clone fails, the update returns `False` (for a non-empty batch),
yet one task per deliverable is still created and awaited, and every
deliverable fails individually at the bare-repository existence check
inside `process_deliverable`, so the batch returns the full deliverable
list as failures instead of aborting. -/
theorem c10_update_failure_isolated_amended :
    ∀ (env : Env) (ds : List Deliverable)
      (oracles : Deliverable → DelivOracle) (cloneOk : String → Bool)
      (firstIdx : Nat),
      env.envconfigPresent = true →
      (∀ d ∈ ds, slugOf d.gitUrl ∉ env.mirrorDirs) →
      (∀ d ∈ ds, cloneOk d.gitUrl = false) →
      ((processDoctype env ds oracles cloneOk false false
          firstIdx).updateResult = some ds.isEmpty
        ∧ (processDoctype env ds oracles cloneOk false false
          firstIdx).result = PyResult.returned ds
        ∧ ∀ d ∈ ds,
          (processDeliverable (doctypeEnv env ds cloneOk false) d
            (oracles d)).failSite = some FailSite.bareRepoMissing) := by
  intro env ds oracles cloneOk firstIdx hcfg hmiss hclone
  have hfail : ∀ u ∈ (ds.map (fun d => d.gitUrl)).dedup,
      slugOf u ∉ env.mirrorDirs ∧ cloneOk u = false := by
    intro u hu
    obtain ⟨d, hd, hdu⟩ := List.mem_map.mp (List.mem_dedup.mp hu)
    exact hdu ▸ ⟨hmiss d hd, hclone d hd⟩
  have hdu : doctypeUpdate env ds cloneOk false =
      updateReposGo env.mirrorDirs cloneOk
        ((ds.map (fun d => d.gitUrl)).dedup) := rfl
  have hupd := hdu.trans (updateReposGo_all_fail cloneOk
    ((ds.map (fun d => d.gitUrl)).dedup) env.mirrorDirs hfail)
  have henv : doctypeEnv env ds cloneOk false =
      { env with mirrorDirs := env.mirrorDirs } := by
    rw [doctypeEnv, hupd]
  have hdeliv : ∀ d ∈ ds,
      processDeliverable (doctypeEnv env ds cloneOk false) d (oracles d) =
        { result := PyResult.returned false,
          failSite := some FailSite.bareRepoMissing, gitCloneCalls := [],
          artifactWritten := none, loggedId := none } := by
    intro d hd
    rw [henv]
    unfold processDeliverable
    rw [if_neg (by simp [hcfg]), if_pos (by simpa using hmiss d hd)]
  refine ⟨?_, ?_, ?_⟩
  · show (if (false : Bool) then none else some (doctypeUpdate env ds cloneOk false).1)
      = some ds.isEmpty
    rw [if_neg (by simp), hupd]
    cases ds with
    | nil => rfl
    | cons d t =>
      simp only [List.map_cons, Option.some.injEq]
      simp [List.isEmpty_iff, List.dedup_eq_nil]
  · rw [processDoctype_collect_result]
    have : ds.filter (fun d => resultFalsy (processDeliverable
        (doctypeEnv env ds cloneOk false) d (oracles d)).result) = ds := by
      rw [List.filter_eq_self]
      intro d hd
      rw [hdeliv d hd]
      rfl
    rw [this]
  · intro d hd
    rw [hdeliv d hd]

/-- Witness for claim C10 at a concrete input: one deliverable, no
mirrors, all clones failing; the update reports failure, the batch returns
the deliverable as failed, and its failure site is the bare-repository
check. -/
theorem c10_update_failure_isolated_witness :
    (processDoctype { envconfigPresent := true, mirrorDirs := [] }
      [sampleDeliverable "w"] (fun _ => okOracle) (fun _ => false)
      false false 0).updateResult = some false ∧
    (processDoctype { envconfigPresent := true, mirrorDirs := [] }
      [sampleDeliverable "w"] (fun _ => okOracle) (fun _ => false)
      false false 0).result = PyResult.returned [sampleDeliverable "w"] := by
  have h := c10_update_failure_isolated_amended
    { envconfigPresent := true, mirrorDirs := [] } [sampleDeliverable "w"]
    (fun _ => okOracle) (fun _ => false) 0 rfl
    (by intro d _; simp) (by intro d _; rfl)
  exact ⟨h.1, h.2.1⟩

end Docbuild
